import Mathlib

/-!
Verification development for the trading dashboard metrics engine
(`src/dashboard_pro.py`).  The engine is the function
`calcular_metricas_adaptadas(df, tipo_analise)` (lines 123-196) together
with the module-body dispatch around it (the `df_filtrado.empty` guard at
line 287).

The embedding models a pandas `DataFrame` shallowly:

* a cell of the profit / count columns is `Option ℚ`, where `none` plays
  the role of a missing value (`NaN`); pandas aggregations (`sum`, `mean`,
  `std`, `min`, `max`, `cumsum`, `expanding().max()`) all skip missing
  values (`skipna=True` defaults), which the `pd*` functions below
  reproduce;
* column *presence* is table-level (`has*` flags), because accessing an
  absent column (`df['TOTAL TRADES']`) raises a `KeyError`, modelled as
  `Except.error`;
* `df.sort_values(key)` returns a fresh sorted frame (modelled with
  `List.insertionSort` on the key; the source relies on unique period
  keys, so stability questions do not arise), while plain column
  assignment `df['X'] = ...` mutates the frame in place; `callerAfter`
  models the state of the *caller's* frame after the call.
-/

namespace Dashboard

/-- A cell of a numeric pandas column: `none` models a missing value (NaN). -/
abbrev Cell := Option ℚ

/-- One row of the loaded table (`resumo_diario` / `resumo_mensal` /
`resumo_anual`): the period-key columns `DATA`, `MÊS/ANO`, `ANO` and the
numeric columns `LUCRO LIQUIDO`, `TOTAL TRADES`, `GAINS`, `LOSSES`. -/
structure Row where
  data : ℤ
  mesAno : String
  ano : ℤ
  lucro : Cell
  totalTrades : Cell
  gains : Cell
  losses : Cell
deriving DecidableEq

/-- A loaded DataFrame: its rows plus which columns are present
(accessing an absent column raises `KeyError` in pandas), and the derived
columns already written into the frame by earlier in-place assignments. -/
structure Table where
  rows : List Row
  hasData : Bool
  hasAno : Bool
  hasLucroLiquido : Bool
  hasLucroLiquidoAcc : Bool
  hasTotalTrades : Bool
  hasGains : Bool
  hasLosses : Bool
  derived : List (String × List Cell)
deriving DecidableEq

/-- The numeric values of a column, with missing cells dropped — what every
skipna pandas aggregation actually operates on. -/
def vals (l : List Cell) : List ℚ := l.filterMap id

/-- pandas `Series.sum()` (skipna): the sum of the present values, `0` for an
empty or all-missing column. -/
def pdSum (l : List Cell) : ℚ := (vals l).sum

/-- pandas `Series.count()`: the number of present (non-missing) values. -/
def pdCount (l : List Cell) : ℕ := (vals l).length

/-- pandas `Series.mean()` (skipna): `NaN` when no value is present. -/
def pdMean (l : List Cell) : Cell :=
  if (vals l).length = 0 then none else some ((vals l).sum / ((vals l).length : ℚ))

/-- Accumulator step for pandas `Series.min()` (skipna). -/
def minStep (acc : Cell) (c : Cell) : Cell :=
  match acc, c with
  | none, c => c
  | some a, none => some a
  | some a, some x => some (min a x)

/-- pandas `Series.min()` (skipna): `NaN` when no value is present. -/
def pdMin (l : List Cell) : Cell := l.foldl minStep none

/-- Accumulator step for pandas `Series.max()` (skipna). -/
def maxStep (acc : Cell) (c : Cell) : Cell :=
  match acc, c with
  | none, c => c
  | some a, none => some a
  | some a, some x => some (max a x)

/-- pandas `Series.max()` (skipna): `NaN` when no value is present. -/
def pdMax (l : List Cell) : Cell := l.foldl maxStep none

/-- pandas `Series.cumsum()` (skipna default): a missing cell stays missing
in the output but the running sum continues past it. -/
def pdCumsumAux (acc : ℚ) : List Cell → List Cell
  | [] => []
  | none :: xs => none :: pdCumsumAux acc xs
  | some x :: xs => some (acc + x) :: pdCumsumAux (acc + x) xs

/-- pandas `Series.cumsum()` starting from an empty running sum. -/
def pdCumsum (l : List Cell) : List Cell := pdCumsumAux 0 l

/-- pandas `Series.expanding().max()` (`min_periods=1`): position `i` holds the
maximum of the present values among positions `0..i`, or `NaN` when none is
present yet. -/
def pdExpMaxAux (acc : Cell) : List Cell → List Cell
  | [] => []
  | none :: xs => acc :: pdExpMaxAux acc xs
  | some x :: xs =>
    match acc with
    | none => some x :: pdExpMaxAux (some x) xs
    | some a => some (max a x) :: pdExpMaxAux (some (max a x)) xs

/-- pandas `Series.expanding().max()` starting with no value seen. -/
def pdExpandingMax (l : List Cell) : List Cell := pdExpMaxAux none l

/-- Elementwise subtraction of two series; missingness propagates, as in
pandas arithmetic. -/
def cellSub (a b : Cell) : Cell :=
  match a, b with
  | some x, some y => some (x - y)
  | _, _ => none

/-- Elementwise difference of two aligned columns (`df['A'] - df['B']`). -/
def pdSub (a b : List Cell) : List Cell := List.zipWith cellSub a b

/-- pandas `.iloc[-1]` on a column: the last cell (the caller guards
emptiness in the source, but the model totalises it with `none`). -/
def ilocLast (l : List Cell) : Cell :=
  match l.getLast? with
  | some c => c
  | none => none

/-- pandas `Series.std()` with the default `ddof=1`: the sample variance over
the present values, `NaN` (`none`) when fewer than two values are present.
This is the variance; the standard deviation is its square root, see
`pdStd`. -/
def sampleVar (l : List Cell) : Cell :=
  if 2 ≤ (vals l).length then
    some ((((vals l).map
        (fun x => (x - (vals l).sum / ((vals l).length : ℚ)) ^ 2)).sum) /
      (((vals l).length - 1 : ℕ) : ℚ))
  else none

/-- pandas `Series.std()` (`ddof=1`), as a real number; `none` models NaN.
This is the only place where an irrational value appears, so the
real-valued part of the model is kept separate from the executable
`Report` below. -/
noncomputable def pdStd (l : List Cell) : Option ℝ :=
  (sampleVar l).map (fun v => Real.sqrt (v : ℝ))

/-- The positive profit values: `df[df[col_lucro] > 0][col_lucro]`
(line 149); a missing cell compares false and is filtered out. -/
def posVals (l : List Cell) : List ℚ := (vals l).filter (fun x => 0 < x)

/-- The negative profit values: `df[df[col_lucro] < 0][col_lucro]`
(line 150). -/
def negVals (l : List Cell) : List ℚ := (vals l).filter (fun x => x < 0)

/-- Gross profit `lucros` (line 149): the sum of the positive profit values. -/
def grossProfit (l : List Cell) : ℚ := (posVals l).sum

/-- Gross loss `perdas` (line 150): the absolute value of the sum of the
negative profit values. -/
def grossLoss (l : List Cell) : ℚ := |(negVals l).sum|

/-- The annualisation factor `periodos_por_ano` (line 167): 252 for Daily
("Diário"), 12 for Monthly ("Mensal"), 1 otherwise (Yearly). -/
def annualizationFactor (tipo : String) : ℕ :=
  if tipo = "Diário" then 252 else if tipo = "Mensal" then 12 else 1

/-- The Sharpe ratio of line 168:
`(retornos.mean() / retornos.std()) * np.sqrt(periodos_por_ano)
 if retornos.std() > 0 else 0`.
A missing standard deviation (fewer than two present values) is NaN, and
`NaN > 0` is false in Python, so those inputs fall into the `else 0` arm
exactly like a zero deviation.  The comparison `std > 0` is decided on the
rational sample variance (`std > 0 ↔ var > 0`), keeping the condition
executable. -/
noncomputable def sharpeOf (rows : List Row) (tipo : String) : ℝ :=
  match sampleVar (rows.map Row.lucro) with
  | none => 0
  | some v =>
    if 0 < v then
      ((pdSum (rows.map Row.lucro) / (pdCount (rows.map Row.lucro) : ℚ) : ℚ) : ℝ) /
          Real.sqrt (v : ℝ) * Real.sqrt ((annualizationFactor tipo : ℕ) : ℝ)
    else 0

/-- The dictionary returned by `calcular_metricas_adaptadas`
(lines 178-196), except that the irrational `sharpe` entry is modelled by
the separate function `sharpeOf` so that the report stays executable.
The three derived series are the columns `CAPITAL_ACUM`, `PEAK`,
`DRAWDOWN` written into `df_com_metricas`. -/
structure Report where
  capitalAcum : List Cell
  peak : List Cell
  drawdown : List Cell
  drawdownMax : Cell
  drawdownAtual : Cell
  profitFactor : ℚ
  avgWin : ℚ
  avgLoss : ℚ
  winRate : ℚ
  expectativa : ℚ
  recoveryFactor : Cell
  capitalFinal : Cell
  capitalMax : Cell
  totalTrades : ℚ
  totalGains : ℚ
  totalLosses : ℚ
deriving DecidableEq

/-- Lines 140-196 of `calcular_metricas_adaptadas`, applied to the rows in
the order produced by the sorting step (lines 130-137, see `orderRows`):
every derived series and scalar of the returned dictionary, computed
exactly as in the source. -/
def metricsOf (rows : List Row) (_tipo : String) : Report :=
  let lucro := rows.map Row.lucro
  let capitalAcum := pdCumsum lucro
  let peak := pdExpandingMax capitalAcum
  let drawdown := pdSub capitalAcum peak
  let drawdownMax := pdMin drawdown
  let lucros := grossProfit lucro
  let perdas := grossLoss lucro
  let winRate : ℚ :=
    if 0 < rows.length then ((posVals lucro).length : ℚ) / (rows.length : ℚ) * 100 else 0
  let avgWin : ℚ :=
    if 0 < (posVals lucro).length then (posVals lucro).sum / ((posVals lucro).length : ℚ)
    else 0
  let avgLoss : ℚ :=
    if 0 < (negVals lucro).length then |(negVals lucro).sum / ((negVals lucro).length : ℚ)|
    else 0
  { capitalAcum := capitalAcum
    peak := peak
    drawdown := drawdown
    drawdownMax := drawdownMax
    drawdownAtual := if 0 < rows.length then ilocLast drawdown else some 0
    profitFactor := if 0 < perdas then lucros / perdas else 0
    avgWin := avgWin
    avgLoss := avgLoss
    winRate := winRate
    expectativa := winRate / 100 * avgWin - (100 - winRate) / 100 * avgLoss
    recoveryFactor :=
      match drawdownMax with
      | some m =>
        if m < 0 then
          match ilocLast capitalAcum with
          | some cf => some |cf / m|
          | none => none
        else some 0
      | none => some 0
    capitalFinal := if 0 < rows.length then ilocLast capitalAcum else some 0
    capitalMax := if 0 < rows.length then pdMax capitalAcum else some 0
    totalTrades := pdSum (rows.map Row.totalTrades)
    totalGains := pdSum (rows.map Row.gains)
    totalLosses := pdSum (rows.map Row.losses) }

/-- Ordering relation used by `df.sort_values('DATA')`. -/
def dataLe (a b : Row) : Prop := a.data ≤ b.data

instance : DecidableRel dataLe := fun a b => inferInstanceAs (Decidable (a.data ≤ b.data))

instance : IsTotal Row dataLe := ⟨fun a b => Int.le_total a.data b.data⟩

instance : IsTrans Row dataLe := ⟨fun _ _ _ h1 h2 => le_trans h1 h2⟩

/-- Ordering relation used by `df.sort_values('ANO')`. -/
def anoLe (a b : Row) : Prop := a.ano ≤ b.ano

instance : DecidableRel anoLe := fun a b => inferInstanceAs (Decidable (a.ano ≤ b.ano))

instance : IsTotal Row anoLe := ⟨fun a b => Int.le_total a.ano b.ano⟩

instance : IsTrans Row anoLe := ⟨fun _ _ _ h1 h2 => le_trans h1 h2⟩

/-- `df.sort_values('DATA')` (line 131): a fresh frame sorted ascending by
the `DATA` column. -/
def sortByData (rows : List Row) : List Row := List.insertionSort dataLe rows

/-- `df.sort_values('ANO')` (line 136): a fresh frame sorted ascending by
the `ANO` column. -/
def sortByAno (rows : List Row) : List Row := List.insertionSort anoLe rows

/-- The sorting dispatch of lines 130-137: Daily sorts by `DATA` (when that
column exists), Monthly keeps the caller-provided order untouched, and
every other analysis type (Yearly, or Daily without a `DATA` column) falls
into the `else` branch that sorts by `ANO`. -/
def orderRows (t : Table) (tipo : String) : List Row :=
  if tipo = "Diário" ∧ t.hasData = true then sortByData t.rows
  else if tipo = "Mensal" then t.rows
  else sortByAno t.rows

/-- Lines 140-196 after the sorting step: the column accesses of the body
in source order.  `df[col_lucro]` (line 140) raises `KeyError` when neither
profit column spelling exists, and `df['TOTAL TRADES']`, `df['GAINS']`,
`df['LOSSES']` (lines 174-176) raise when absent; each aborts the whole
computation. -/
def computeRows (t : Table) (rows : List Row) (tipo : String) : Except String Report :=
  if ¬(t.hasLucroLiquido = true ∨ t.hasLucroLiquidoAcc = true) then
    Except.error "KeyError: LUCRO LIQUIDO"
  else if t.hasTotalTrades = false then Except.error "KeyError: TOTAL TRADES"
  else if t.hasGains = false then Except.error "KeyError: GAINS"
  else if t.hasLosses = false then Except.error "KeyError: LOSSES"
  else Except.ok (metricsOf rows tipo)

/-- The whole of `calcular_metricas_adaptadas`: the `else` sorting branch
(line 136) needs the `ANO` column and raises `KeyError` before anything
else when it is absent; otherwise the body runs on the reordered rows. -/
def compute (t : Table) (tipo : String) : Except String Report :=
  if ¬(tipo = "Diário" ∧ t.hasData = true) ∧ tipo ≠ "Mensal" ∧ t.hasAno = false then
    Except.error "KeyError: ANO"
  else computeRows t (orderRows t tipo) tipo

/-- The caller's DataFrame after `calcular_metricas_adaptadas(df, tipo)`
returns (or raises).  For Daily and Yearly the function rebinds `df` to
the fresh frame returned by `sort_values` before any column assignment,
so all writes land on the copy and the caller's frame is untouched.  For
Monthly there is no rebinding, so the assignments of lines 140, 143, 144
add the columns `CAPITAL_ACUM`, `PEAK`, `DRAWDOWN` to the caller's frame
in place (provided a profit column exists; otherwise line 140 raises
before any assignment). -/
def callerAfter (t : Table) (tipo : String) : Table :=
  if tipo = "Mensal" ∧ (t.hasLucroLiquido = true ∨ t.hasLucroLiquidoAcc = true) then
    let lucro := t.rows.map Row.lucro
    let ca := pdCumsum lucro
    let pk := pdExpandingMax ca
    { t with derived := t.derived ++ [("CAPITAL_ACUM", ca), ("PEAK", pk), ("DRAWDOWN", pdSub ca pk)] }
  else t

/-- The module-body dispatch (lines 287-290 and 627-628): when the filtered
frame is empty the dashboard renders the empty-state warning (`none`, the
sentinel) and never calls the engine; otherwise it computes the metrics. -/
def dashboard (t : Table) (tipo : String) : Option (Except String Report) :=
  if t.rows = [] then none else some (compute t tipo)

/-! ### Pure counterparts of the column operations

On a column without missing values every `pd*` operation agrees with a
plain rational-valued computation; the `*_map_some` lemmas below state
that correspondence and let the invariants be proved on plain lists. -/

/-- Running sum continuing from an accumulated prefix sum. -/
def csumAux (acc : ℚ) : List ℚ → List ℚ
  | [] => []
  | x :: xs => (acc + x) :: csumAux (acc + x) xs

/-- Running sum of a list of rationals (pure `cumsum`). -/
def csum (l : List ℚ) : List ℚ := csumAux 0 l

/-- Running maximum continuing from an already-seen maximum. -/
def rmaxAux (acc : ℚ) : List ℚ → List ℚ
  | [] => []
  | x :: xs => max acc x :: rmaxAux (max acc x) xs

/-- Running maximum of a list of rationals (pure `expanding().max()`). -/
def rmax : List ℚ → List ℚ
  | [] => []
  | x :: xs => x :: rmaxAux x xs

/-- Pointwise order on cells that also asserts both cells carry a value. -/
def cellLe (a b : Cell) : Prop := ∃ x y, a = some x ∧ b = some y ∧ x ≤ y

theorem csumAux_length (l : List ℚ) : ∀ acc : ℚ, (csumAux acc l).length = l.length := by
  induction l with
  | nil => intro acc; rfl
  | cons x xs ih => intro acc; simp [csumAux, ih]

theorem csum_length (l : List ℚ) : (csum l).length = l.length := csumAux_length l 0

theorem rmaxAux_length (l : List ℚ) : ∀ acc : ℚ, (rmaxAux acc l).length = l.length := by
  induction l with
  | nil => intro acc; rfl
  | cons x xs ih => intro acc; simp [rmaxAux, ih]

theorem rmax_length (l : List ℚ) : (rmax l).length = l.length := by
  cases l with
  | nil => rfl
  | cons x xs => simp [rmax, rmaxAux_length]

theorem vals_map_some (vs : List ℚ) : vals (vs.map some) = vs := by
  induction vs with
  | nil => rfl
  | cons x xs ih =>
    simp only [vals, List.filterMap_cons, List.map_cons, id] at ih ⊢
    exact congrArg (List.cons x) ih

theorem all_isSome_eq_map_some (l : List Cell) (h : ∀ c ∈ l, c.isSome = true) :
    l = (vals l).map some := by
  induction l with
  | nil => rfl
  | cons c cs ih =>
    cases c with
    | none => exact absurd (h none (by simp)) (by simp)
    | some a =>
      have := ih (fun c hc => h c (List.mem_cons_of_mem _ hc))
      simpa [vals] using this

theorem pdCumsumAux_map_some (vs : List ℚ) :
    ∀ acc : ℚ, pdCumsumAux acc (vs.map some) = (csumAux acc vs).map some := by
  induction vs with
  | nil => intro acc; rfl
  | cons x xs ih => intro acc; simp [pdCumsumAux, csumAux, ih]

theorem pdCumsum_map_some (vs : List ℚ) : pdCumsum (vs.map some) = (csum vs).map some :=
  pdCumsumAux_map_some vs 0

theorem pdExpMaxAux_map_some (vs : List ℚ) :
    ∀ acc : ℚ, pdExpMaxAux (some acc) (vs.map some) = (rmaxAux acc vs).map some := by
  induction vs with
  | nil => intro acc; rfl
  | cons x xs ih => intro acc; simp [pdExpMaxAux, rmaxAux, ih]

theorem pdExpandingMax_map_some (vs : List ℚ) :
    pdExpandingMax (vs.map some) = (rmax vs).map some := by
  cases vs with
  | nil => rfl
  | cons x xs => simp [pdExpandingMax, pdExpMaxAux, rmax, pdExpMaxAux_map_some]

theorem pdSub_map_some (a : List ℚ) :
    ∀ b : List ℚ, pdSub (a.map some) (b.map some) = (List.zipWith (fun x y => x - y) a b).map some := by
  induction a with
  | nil => intro b; rfl
  | cons x xs ih =>
    intro b
    cases b with
    | nil => rfl
    | cons y ys => simpa [pdSub, cellSub] using ih ys

theorem foldl_minStep_map_some (vs : List ℚ) :
    ∀ a : ℚ, List.foldl minStep (some a) (vs.map some) = some (List.foldl min a vs) := by
  induction vs with
  | nil => intro a; rfl
  | cons x xs ih => intro a; simp [minStep] at ih ⊢; exact ih (min a x)

theorem pdMin_cons_map_some (v : ℚ) (vs : List ℚ) :
    pdMin ((v :: vs).map some) = some (List.foldl min v vs) := by
  simp [pdMin, minStep]
  exact foldl_minStep_map_some vs v

theorem foldl_min_le_init (l : List ℚ) : ∀ a : ℚ, List.foldl min a l ≤ a := by
  induction l with
  | nil => intro a; exact le_refl a
  | cons x xs ih =>
    intro a
    calc List.foldl min a (x :: xs) = List.foldl min (min a x) xs := rfl
    _ ≤ min a x := ih (min a x)
    _ ≤ a := min_le_left a x

theorem le_of_mem_rmaxAux (l : List ℚ) :
    ∀ acc : ℚ, ∀ y ∈ rmaxAux acc l, acc ≤ y := by
  induction l with
  | nil => intro acc y hy; simp [rmaxAux] at hy
  | cons x xs ih =>
    intro acc y hy
    simp only [rmaxAux, List.mem_cons] at hy
    rcases hy with h | h
    · exact h ▸ le_max_left acc x
    · exact le_trans (le_max_left acc x) (ih (max acc x) y h)

theorem rmaxAux_pairwise (l : List ℚ) :
    ∀ acc : ℚ, List.Pairwise (fun a b => a ≤ b) (rmaxAux acc l) := by
  induction l with
  | nil => intro acc; exact List.Pairwise.nil
  | cons x xs ih =>
    intro acc
    exact List.Pairwise.cons (fun y hy => le_of_mem_rmaxAux xs (max acc x) y hy) (ih (max acc x))

theorem rmax_pairwise (l : List ℚ) : List.Pairwise (fun a b => a ≤ b) (rmax l) := by
  cases l with
  | nil => exact List.Pairwise.nil
  | cons x xs =>
    exact List.Pairwise.cons (fun y hy => le_of_mem_rmaxAux xs x y hy) (rmaxAux_pairwise xs x)

theorem getElem_le_rmaxAux (l : List ℚ) :
    ∀ (acc : ℚ) (i : ℕ) (h : i < l.length) (h2 : i < (rmaxAux acc l).length),
      l[i] ≤ (rmaxAux acc l)[i] := by
  induction l with
  | nil => intro acc i h h2; exact absurd h (by simp)
  | cons x xs ih =>
    intro acc i h h2
    cases i with
    | zero => exact le_max_right acc x
    | succ j =>
      have hj : j < xs.length := by simpa using h
      have hj2 : j < (rmaxAux (max acc x) xs).length := by
        rw [rmaxAux_length]; exact hj
      simpa [rmaxAux] using ih (max acc x) j hj hj2

theorem getElem_le_rmax (l : List ℚ) (i : ℕ) (h : i < l.length)
    (h2 : i < (rmax l).length) : l[i] ≤ (rmax l)[i] := by
  cases l with
  | nil => exact absurd h (by simp)
  | cons x xs =>
    cases i with
    | zero => exact le_refl x
    | succ j =>
      have hj : j < xs.length := by simpa using h
      have hj2 : j < (rmaxAux x xs).length := by rw [rmaxAux_length]; exact hj
      simpa [rmax] using getElem_le_rmaxAux xs x j hj hj2

/-! ### Projection equations for the report -/

theorem metricsOf_capitalAcum (rows : List Row) (tipo : String) :
    (metricsOf rows tipo).capitalAcum = pdCumsum (rows.map Row.lucro) := rfl

theorem metricsOf_peak (rows : List Row) (tipo : String) :
    (metricsOf rows tipo).peak = pdExpandingMax (pdCumsum (rows.map Row.lucro)) := rfl

theorem metricsOf_drawdown (rows : List Row) (tipo : String) :
    (metricsOf rows tipo).drawdown =
      pdSub (pdCumsum (rows.map Row.lucro)) (pdExpandingMax (pdCumsum (rows.map Row.lucro))) := rfl

theorem metricsOf_drawdownMax (rows : List Row) (tipo : String) :
    (metricsOf rows tipo).drawdownMax = pdMin ((metricsOf rows tipo).drawdown) := rfl

theorem metricsOf_drawdownAtual (rows : List Row) (tipo : String) :
    (metricsOf rows tipo).drawdownAtual =
      if 0 < rows.length then ilocLast ((metricsOf rows tipo).drawdown) else some 0 := rfl

theorem metricsOf_profitFactor (rows : List Row) (tipo : String) :
    (metricsOf rows tipo).profitFactor =
      if 0 < grossLoss (rows.map Row.lucro) then
        grossProfit (rows.map Row.lucro) / grossLoss (rows.map Row.lucro)
      else 0 := rfl

theorem metricsOf_winRate (rows : List Row) (tipo : String) :
    (metricsOf rows tipo).winRate =
      if 0 < rows.length then
        ((posVals (rows.map Row.lucro)).length : ℚ) / (rows.length : ℚ) * 100
      else 0 := rfl

theorem metricsOf_avgWin (rows : List Row) (tipo : String) :
    (metricsOf rows tipo).avgWin =
      if 0 < (posVals (rows.map Row.lucro)).length then
        (posVals (rows.map Row.lucro)).sum / ((posVals (rows.map Row.lucro)).length : ℚ)
      else 0 := rfl

theorem metricsOf_avgLoss (rows : List Row) (tipo : String) :
    (metricsOf rows tipo).avgLoss =
      if 0 < (negVals (rows.map Row.lucro)).length then
        |(negVals (rows.map Row.lucro)).sum / ((negVals (rows.map Row.lucro)).length : ℚ)|
      else 0 := rfl

theorem metricsOf_expectativa (rows : List Row) (tipo : String) :
    (metricsOf rows tipo).expectativa =
      (metricsOf rows tipo).winRate / 100 * (metricsOf rows tipo).avgWin -
        (100 - (metricsOf rows tipo).winRate) / 100 * (metricsOf rows tipo).avgLoss := rfl

theorem metricsOf_totalTrades (rows : List Row) (tipo : String) :
    (metricsOf rows tipo).totalTrades = pdSum (rows.map Row.totalTrades) := rfl

theorem metricsOf_totalGains (rows : List Row) (tipo : String) :
    (metricsOf rows tipo).totalGains = pdSum (rows.map Row.gains) := rfl

theorem metricsOf_totalLosses (rows : List Row) (tipo : String) :
    (metricsOf rows tipo).totalLosses = pdSum (rows.map Row.losses) := rfl

/-! ### Shared facts about well-formed (no missing profit) inputs -/

theorem lucro_all_isSome (rows : List Row)
    (hwf : ∀ r ∈ rows, (Row.lucro r).isSome = true) :
    ∀ c ∈ rows.map Row.lucro, c.isSome = true := by
  intro c hc
  rcases List.mem_map.mp hc with ⟨r, hr, rfl⟩
  exact hwf r hr

/-! ### Sample rows and tables used by the concrete witnesses -/

/-- Concrete sample row builder for witnesses (profit cell chosen per row). -/
def mkRow (d : ℤ) (p : Cell) : Row :=
  { data := d, mesAno := "2024-01", ano := d, lucro := p,
    totalTrades := some 1, gains := some 1, losses := some 0 }

/-- The three-day scenario of the specification:
profits 100, -50, 80 in date order. -/
def rowsScenario : List Row :=
  [mkRow 1 (some 100), mkRow 2 (some (-50)), mkRow 3 (some 80)]

/-- C1: for every non-empty well-formed input, the three derived series
(cumulative capital, running peak, drawdown) have the same length as the
input; the peak series is monotonically non-decreasing; every drawdown
entry is `≤ 0`; `drawdown_max` is `min(drawdown)` and is `≤ 0`; and
`drawdown_atual` is the last drawdown entry. -/
theorem C1_series_invariants (rows : List Row) (tipo : String)
    (hne : rows ≠ []) (hwf : ∀ r ∈ rows, (Row.lucro r).isSome = true) :
    (metricsOf rows tipo).capitalAcum.length = rows.length ∧
    (metricsOf rows tipo).peak.length = rows.length ∧
    (metricsOf rows tipo).drawdown.length = rows.length ∧
    List.Pairwise cellLe (metricsOf rows tipo).peak ∧
    (∀ c ∈ (metricsOf rows tipo).drawdown, cellLe c (some 0)) ∧
    (metricsOf rows tipo).drawdownMax = pdMin ((metricsOf rows tipo).drawdown) ∧
    cellLe (metricsOf rows tipo).drawdownMax (some 0) ∧
    (metricsOf rows tipo).drawdownAtual = ilocLast ((metricsOf rows tipo).drawdown) := by
  have hbr : rows.map Row.lucro = (vals (rows.map Row.lucro)).map some :=
    all_isSome_eq_map_some _ (lucro_all_isSome rows hwf)
  have hlen : (vals (rows.map Row.lucro)).length = rows.length := by
    have h := congrArg List.length hbr
    simp only [List.length_map] at h
    exact h.symm
  have hca : (metricsOf rows tipo).capitalAcum = (csum (vals (rows.map Row.lucro))).map some := by
    rw [metricsOf_capitalAcum, hbr, pdCumsum_map_some, vals_map_some]
  have hpk : (metricsOf rows tipo).peak =
      (rmax (csum (vals (rows.map Row.lucro)))).map some := by
    rw [metricsOf_peak, hbr, pdCumsum_map_some, pdExpandingMax_map_some, vals_map_some]
  have hdd : (metricsOf rows tipo).drawdown =
      (List.zipWith (fun x y => x - y) (csum (vals (rows.map Row.lucro)))
        (rmax (csum (vals (rows.map Row.lucro))))).map some := by
    rw [metricsOf_drawdown, hbr, pdCumsum_map_some, pdExpandingMax_map_some, pdSub_map_some,
      vals_map_some]
  have hddle : ∀ c ∈ (metricsOf rows tipo).drawdown, cellLe c (some 0) := by
    intro c hc
    rw [hdd] at hc
    rcases List.mem_map.mp hc with ⟨d, hd, rfl⟩
    rcases List.mem_iff_getElem.mp hd with ⟨i, hi, rfl⟩
    rw [List.getElem_zipWith]
    refine ⟨_, 0, rfl, rfl, sub_nonpos.mpr ?_⟩
    exact getElem_le_rmax _ i _ _
  refine ⟨?_, ?_, ?_, ?_, hddle, metricsOf_drawdownMax rows tipo, ?_, ?_⟩
  · rw [hca]; simp [csum_length, hlen]
  · rw [hpk]; simp [rmax_length, csum_length, hlen]
  · rw [hdd]; simp [List.length_zipWith, rmax_length, csum_length, hlen]
  · rw [hpk]
    exact (rmax_pairwise _).map some (fun a b hab => ⟨a, b, rfl, rfl, hab⟩)
  · have hvne : vals (rows.map Row.lucro) ≠ [] := by
      intro h0
      apply hne
      have : rows.length = 0 := by rw [← hlen, h0]; rfl
      exact List.length_eq_zero.mp this
    have hlenpos : 0 < (List.zipWith (fun x y => x - y) (csum (vals (rows.map Row.lucro)))
        (rmax (csum (vals (rows.map Row.lucro))))).length := by
      simp only [List.length_zipWith, rmax_length, csum_length]
      simp only [min_self]
      rw [hlen]
      exact List.length_pos.mpr hne
    obtain ⟨d0, ds', hds⟩ := List.exists_cons_of_ne_nil (List.length_pos.mp hlenpos)
    have hmem : some d0 ∈ (metricsOf rows tipo).drawdown := by
      rw [hdd, hds]; exact List.mem_map_of_mem some (List.mem_cons_self d0 ds')
    rcases hddle (some d0) hmem with ⟨x, y, hx, hy, hxy⟩
    have hd0 : d0 ≤ 0 := by
      have hx' : d0 = x := Option.some_injective _ hx
      have hy' : (0 : ℚ) = y := Option.some_injective _ hy
      rw [← hx', ← hy'] at hxy
      exact hxy
    rw [metricsOf_drawdownMax, hdd, hds, pdMin_cons_map_some]
    exact ⟨_, 0, rfl, rfl, le_trans (foldl_min_le_init ds' d0) hd0⟩
  · rw [metricsOf_drawdownAtual, if_pos (List.length_pos.mpr hne)]

/-- Witness for C1: the invariants instantiated at the specification's
three-day scenario. -/
theorem C1_series_invariants_witness :
    (metricsOf rowsScenario "Diário").capitalAcum.length = rowsScenario.length ∧
    (metricsOf rowsScenario "Diário").peak.length = rowsScenario.length ∧
    (metricsOf rowsScenario "Diário").drawdown.length = rowsScenario.length ∧
    List.Pairwise cellLe (metricsOf rowsScenario "Diário").peak ∧
    (∀ c ∈ (metricsOf rowsScenario "Diário").drawdown, cellLe c (some 0)) ∧
    (metricsOf rowsScenario "Diário").drawdownMax =
      pdMin ((metricsOf rowsScenario "Diário").drawdown) ∧
    cellLe (metricsOf rowsScenario "Diário").drawdownMax (some 0) ∧
    (metricsOf rowsScenario "Diário").drawdownAtual =
      ilocLast ((metricsOf rowsScenario "Diário").drawdown) :=
  C1_series_invariants rowsScenario "Diário" (by decide) (by decide)

/-- Values of the profit column are exactly the row profits that carry a
value: membership transfer used by several claims. -/
theorem mem_vals_lucro (rows : List Row) (a : ℚ) :
    a ∈ vals (rows.map Row.lucro) ↔ ∃ r ∈ rows, Row.lucro r = some a := by
  constructor
  · intro ha
    rcases List.mem_filterMap.mp ha with ⟨c, hc, hca⟩
    rcases List.mem_map.mp hc with ⟨r, hr, rfl⟩
    exact ⟨r, hr, hca⟩
  · rintro ⟨r, hr, hra⟩
    exact List.mem_filterMap.mpr ⟨Row.lucro r, List.mem_map_of_mem Row.lucro hr, hra⟩

/-- C2: `profit_factor` is `gross_profit / gross_loss` when `gross_loss`
is positive and `0` when `gross_loss` is zero (never an infinity or an
error); in particular an all-positive profit column gives
`profit_factor = 0` and `win_rate = 100`. -/
theorem C2_profit_factor (rows : List Row) (tipo : String) (hne : rows ≠ []) :
    (0 < grossLoss (rows.map Row.lucro) →
      (metricsOf rows tipo).profitFactor =
        grossProfit (rows.map Row.lucro) / grossLoss (rows.map Row.lucro)) ∧
    (grossLoss (rows.map Row.lucro) = 0 → (metricsOf rows tipo).profitFactor = 0) ∧
    ((∀ r ∈ rows, ∃ v, Row.lucro r = some v ∧ 0 < v) →
      (metricsOf rows tipo).profitFactor = 0 ∧ (metricsOf rows tipo).winRate = 100) := by
  refine ⟨?_, ?_, ?_⟩
  · intro h
    rw [metricsOf_profitFactor, if_pos h]
  · intro h
    rw [metricsOf_profitFactor, if_neg (by rw [h]; exact lt_irrefl 0)]
  · intro hpos
    have hvals : ∀ a ∈ vals (rows.map Row.lucro), 0 < a := by
      intro a ha
      rcases (mem_vals_lucro rows a).mp ha with ⟨r, hr, hra⟩
      rcases hpos r hr with ⟨v, hv, hv0⟩
      rw [hv] at hra
      exact (Option.some_injective _ hra) ▸ hv0
    have hneg : negVals (rows.map Row.lucro) = [] := by
      rw [negVals, List.filter_eq_nil_iff]
      intro a ha
      simp only [decide_eq_true_eq]
      exact not_lt_of_gt (hvals a ha)
    have hgl : grossLoss (rows.map Row.lucro) = 0 := by
      rw [grossLoss, hneg]
      simp
    refine ⟨by rw [metricsOf_profitFactor, if_neg (by rw [hgl]; exact lt_irrefl 0)], ?_⟩
    have hposall : posVals (rows.map Row.lucro) = vals (rows.map Row.lucro) := by
      rw [posVals, List.filter_eq_self]
      intro a ha
      simp only [decide_eq_true_eq]
      exact hvals a ha
    have hwf : ∀ r ∈ rows, (Row.lucro r).isSome = true := by
      intro r hr
      rcases hpos r hr with ⟨v, hv, _⟩
      rw [hv]
      rfl
    have hbr : rows.map Row.lucro = (vals (rows.map Row.lucro)).map some :=
      all_isSome_eq_map_some _ (lucro_all_isSome rows hwf)
    have hlen : (vals (rows.map Row.lucro)).length = rows.length := by
      have h := congrArg List.length hbr
      simp only [List.length_map] at h
      exact h.symm
    have hn0 : ((rows.length : ℚ)) ≠ 0 := by
      exact_mod_cast Nat.pos_iff_ne_zero.mp (List.length_pos.mpr hne)
    rw [metricsOf_winRate, if_pos (List.length_pos.mpr hne), hposall, hlen,
      div_self hn0, one_mul]

/-- Witness for C2: the all-positive two-day input. -/
theorem C2_profit_factor_witness :
    (metricsOf [mkRow 1 (some 10), mkRow 2 (some 5)] "Diário").profitFactor = 0 ∧
    (metricsOf [mkRow 1 (some 10), mkRow 2 (some 5)] "Diário").winRate = 100 :=
  (C2_profit_factor [mkRow 1 (some 10), mkRow 2 (some 5)] "Diário" (by decide)).2.2
    (by decide)

/-- C3: `win_rate` is `100 * count(positive periods) / total periods`
(rows with profit exactly `0` count in the denominator only, because both
buckets filter with strict inequalities); `expectancy` is
`win_rate/100 * avg_win - (100 - win_rate)/100 * avg_loss`; `avg_win`
(`avg_loss`) is the mean of the strictly positive values (absolute mean of
the strictly negative values) and `0` when no such period exists. -/
theorem C3_win_rate_expectancy (rows : List Row) (tipo : String) (hne : rows ≠ []) :
    (metricsOf rows tipo).winRate =
      100 * ((posVals (rows.map Row.lucro)).length : ℚ) / (rows.length : ℚ) ∧
    (metricsOf rows tipo).expectativa =
      (metricsOf rows tipo).winRate / 100 * (metricsOf rows tipo).avgWin -
        (100 - (metricsOf rows tipo).winRate) / 100 * (metricsOf rows tipo).avgLoss ∧
    (0 < (posVals (rows.map Row.lucro)).length →
      (metricsOf rows tipo).avgWin =
        (posVals (rows.map Row.lucro)).sum / ((posVals (rows.map Row.lucro)).length : ℚ)) ∧
    ((posVals (rows.map Row.lucro)).length = 0 → (metricsOf rows tipo).avgWin = 0) ∧
    (0 < (negVals (rows.map Row.lucro)).length →
      (metricsOf rows tipo).avgLoss =
        |(negVals (rows.map Row.lucro)).sum / ((negVals (rows.map Row.lucro)).length : ℚ)|) ∧
    ((negVals (rows.map Row.lucro)).length = 0 → (metricsOf rows tipo).avgLoss = 0) := by
  refine ⟨?_, metricsOf_expectativa rows tipo, ?_, ?_, ?_, ?_⟩
  · rw [metricsOf_winRate, if_pos (List.length_pos.mpr hne)]
    ring
  · intro h
    rw [metricsOf_avgWin, if_pos h]
  · intro h
    rw [metricsOf_avgWin, if_neg (by omega)]
  · intro h
    rw [metricsOf_avgLoss, if_pos h]
  · intro h
    rw [metricsOf_avgLoss, if_neg (by omega)]

/-- Witness for C3: win rate and average win at the three-day scenario. -/
theorem C3_win_rate_expectancy_witness :
    (metricsOf rowsScenario "Diário").winRate =
      100 * ((posVals (rowsScenario.map Row.lucro)).length : ℚ) / (rowsScenario.length : ℚ) ∧
    (metricsOf rowsScenario "Diário").avgWin =
      (posVals (rowsScenario.map Row.lucro)).sum /
        ((posVals (rowsScenario.map Row.lucro)).length : ℚ) :=
  ⟨(C3_win_rate_expectancy rowsScenario "Diário" (by decide)).1,
    (C3_win_rate_expectancy rowsScenario "Diário" (by decide)).2.2.1 (by decide)⟩

/-- C4: the Sharpe ratio is `(mean / std) * sqrt(annualization factor)`
whenever the sample standard deviation is strictly positive, the factors
are 252 / 12 / 1 for Daily / Monthly / Yearly, and the Sharpe ratio is `0`
whenever the standard deviation is `0`, regardless of the mean. -/
theorem C4_sharpe (rows : List Row) (tipo : String) :
    (∀ m s, pdMean (rows.map Row.lucro) = some m →
      pdStd (rows.map Row.lucro) = some s → 0 < s →
      sharpeOf rows tipo = ((m : ℚ) : ℝ) / s *
        Real.sqrt ((annualizationFactor tipo : ℕ) : ℝ)) ∧
    (∀ s, pdStd (rows.map Row.lucro) = some s → s = 0 → sharpeOf rows tipo = 0) ∧
    annualizationFactor "Diário" = 252 ∧ annualizationFactor "Mensal" = 12 ∧
    annualizationFactor "Anual" = 1 := by
  refine ⟨?_, ?_, by decide, by decide, by decide⟩
  · intro m s hm hs hspos
    rw [pdStd] at hs
    cases hv : sampleVar (rows.map Row.lucro) with
    | none =>
      rw [hv] at hs
      exact absurd hs (by simp)
    | some v =>
      rw [hv] at hs
      have hsv : Real.sqrt ((v : ℚ) : ℝ) = s := Option.some_injective _ (by simpa using hs)
      have hvpos : 0 < v := by
        have h1 : (0 : ℝ) < Real.sqrt ((v : ℚ) : ℝ) := hsv ▸ hspos
        exact_mod_cast Real.sqrt_pos.mp h1
      have hm' : pdSum (rows.map Row.lucro) / (pdCount (rows.map Row.lucro) : ℚ) = m := by
        rw [pdMean] at hm
        by_cases h0 : (vals (rows.map Row.lucro)).length = 0
        · rw [if_pos h0] at hm
          exact absurd hm (by simp)
        · rw [if_neg h0] at hm
          exact Option.some_injective _ hm
      unfold sharpeOf
      rw [hv]
      simp only []
      rw [if_pos hvpos, hm', hsv]
  · intro s hs hs0
    rw [pdStd] at hs
    cases hv : sampleVar (rows.map Row.lucro) with
    | none =>
      unfold sharpeOf
      rw [hv]
    | some v =>
      rw [hv] at hs
      have hsv : Real.sqrt ((v : ℚ) : ℝ) = s := Option.some_injective _ (by simpa using hs)
      have hvnp : ¬ 0 < v := by
        intro hvp
        have h1 : (0 : ℝ) < Real.sqrt ((v : ℚ) : ℝ) := Real.sqrt_pos.mpr (by exact_mod_cast hvp)
        rw [hsv, hs0] at h1
        exact lt_irrefl 0 h1
      unfold sharpeOf
      rw [hv]
      simp only []
      rw [if_neg hvnp]

/-- Witness for C4: two Yearly rows with profits 1 and 3 have sample
variance 2, hence a positive standard deviation, and the Sharpe formula
applies. -/
theorem C4_sharpe_witness :
    sharpeOf [mkRow 1 (some 1), mkRow 2 (some 3)] "Anual" =
      (((2 : ℚ) : ℝ) / Real.sqrt ((2 : ℚ) : ℝ)) *
        Real.sqrt ((annualizationFactor "Anual" : ℕ) : ℝ) := by
  have hvals : vals ([mkRow 1 (some 1), mkRow 2 (some 3)].map Row.lucro) = [1, 3] := rfl
  have hvar : sampleVar ([mkRow 1 (some 1), mkRow 2 (some 3)].map Row.lucro) = some 2 := by
    simp only [sampleVar, hvals]
    norm_num [List.sum_cons, List.sum_nil]
  have hmean : pdMean ([mkRow 1 (some 1), mkRow 2 (some 3)].map Row.lucro) = some 2 := by
    simp only [pdMean, hvals]
    norm_num [List.sum_cons, List.sum_nil]
  have hstd : pdStd ([mkRow 1 (some 1), mkRow 2 (some 3)].map Row.lucro) =
      some (Real.sqrt ((2 : ℚ) : ℝ)) := by
    rw [pdStd, hvar]
    rfl
  have hs : (0 : ℝ) < Real.sqrt ((2 : ℚ) : ℝ) := Real.sqrt_pos.mpr (by norm_num)
  exact (C4_sharpe [mkRow 1 (some 1), mkRow 2 (some 3)] "Anual").1 2
    (Real.sqrt ((2 : ℚ) : ℝ)) hmean hstd hs

/-- C10: a single-record input always has Sharpe ratio `0`, whatever its
profit value: the sample standard deviation of one observation is missing
(NaN) and a missing value is not strictly positive. -/
theorem C10_single_row_sharpe (r : Row) (tipo : String) : sharpeOf [r] tipo = 0 := by
  have hlen : (vals ([r].map Row.lucro)).length ≤ 1 := by
    cases hc : Row.lucro r <;> simp [vals, hc]
  have hv : sampleVar ([r].map Row.lucro) = none := by
    rw [sampleVar, if_neg (by omega)]
  unfold sharpeOf
  rw [hv]

/-- C5: an empty filtered table renders the empty-state sentinel and
nothing else; the sentinel appears exactly for empty input, so it is
distinguishable from a computed report. -/
theorem C5_empty_sentinel (t : Table) (tipo : String) :
    (t.rows = [] → dashboard t tipo = none) ∧
    (dashboard t tipo = none → t.rows = []) := by
  constructor
  · intro h
    rw [dashboard, if_pos h]
  · intro h
    by_cases he : t.rows = []
    · exact he
    · rw [dashboard, if_neg he] at h
      exact absurd h (by simp)

/-- A loaded table with no rows at all. -/
def emptyTable : Table :=
  { rows := [], hasData := true, hasAno := true, hasLucroLiquido := true,
    hasLucroLiquidoAcc := false, hasTotalTrades := true, hasGains := true,
    hasLosses := true, derived := [] }

/-- Witness for C5: the concrete empty table renders the sentinel. -/
theorem C5_empty_sentinel_witness : dashboard emptyTable "Diário" = none :=
  (C5_empty_sentinel emptyTable "Diário").1 rfl

/-- The three-day scenario loaded as a full daily table, rows deliberately
out of date order. -/
def tScenario : Table :=
  { rows := [mkRow 3 (some 80), mkRow 1 (some 100), mkRow 2 (some (-50))],
    hasData := true, hasAno := true, hasLucroLiquido := true,
    hasLucroLiquidoAcc := false, hasTotalTrades := true, hasGains := true,
    hasLosses := true, derived := [] }

/-- C6: the engine reorders the input ascending by period key for Daily
(by `DATA`) and Yearly (by `ANO`), keeps the caller-provided order for
Monthly (no re-derivation from the label string), and every successful
computation is over exactly that resulting order. -/
theorem C6_ordering (t : Table) :
    (t.hasData = true →
      List.Sorted dataLe (orderRows t "Diário") ∧ (orderRows t "Diário").Perm t.rows) ∧
    orderRows t "Mensal" = t.rows ∧
    List.Sorted anoLe (orderRows t "Anual") ∧ (orderRows t "Anual").Perm t.rows ∧
    (∀ tipo rep, compute t tipo = Except.ok rep → rep = metricsOf (orderRows t tipo) tipo) := by
  refine ⟨?_, ?_, ?_, ?_, ?_⟩
  · intro h
    have hor : orderRows t "Diário" = sortByData t.rows := by
      rw [orderRows, if_pos ⟨rfl, h⟩]
    rw [hor, sortByData]
    exact ⟨List.sorted_insertionSort dataLe t.rows, List.perm_insertionSort dataLe t.rows⟩
  · rw [orderRows, if_neg (by intro hc; exact absurd hc.1 (by decide)), if_pos rfl]
  · rw [orderRows, if_neg (by intro hc; exact absurd hc.1 (by decide)),
      if_neg (by decide), sortByAno]
    exact List.sorted_insertionSort anoLe t.rows
  · rw [orderRows, if_neg (by intro hc; exact absurd hc.1 (by decide)),
      if_neg (by decide), sortByAno]
    exact List.perm_insertionSort anoLe t.rows
  · intro tipo rep h
    rw [compute] at h
    split at h
    · exact Except.noConfusion h
    · rw [computeRows] at h
      split at h
      · exact Except.noConfusion h
      · split at h
        · exact Except.noConfusion h
        · split at h
          · exact Except.noConfusion h
          · split at h
            · exact Except.noConfusion h
            · injection h with h'
              exact h'.symm

/-- Witness for C6: the out-of-order daily table is sorted by date, the
monthly order is preserved verbatim, and the daily computation is over the
sorted rows. -/
theorem C6_ordering_witness :
    List.Sorted dataLe (orderRows tScenario "Diário") ∧
    (orderRows tScenario "Diário").Perm tScenario.rows ∧
    orderRows tScenario "Mensal" = tScenario.rows ∧
    metricsOf (orderRows tScenario "Diário") "Diário" =
      metricsOf (orderRows tScenario "Diário") "Diário" :=
  ⟨((C6_ordering tScenario).1 rfl).1, ((C6_ordering tScenario).1 rfl).2,
    (C6_ordering tScenario).2.1,
    (C6_ordering tScenario).2.2.2.2 "Diário"
      (metricsOf (orderRows tScenario "Diário") "Diário") rfl⟩

/-- A successful run needs only the presence of the accessed columns; this
is the success path shared by several claims. -/
theorem compute_ok_of_columns (t : Table) (tipo : String)
    (h1 : t.hasLucroLiquido = true ∨ t.hasLucroLiquidoAcc = true)
    (h2 : t.hasTotalTrades = true) (h3 : t.hasGains = true) (h4 : t.hasLosses = true)
    (h5 : t.hasAno = true) :
    compute t tipo = Except.ok (metricsOf (orderRows t tipo) tipo) := by
  rw [compute, if_neg (by simp [h5]), computeRows, if_neg (not_not_intro h1),
    if_neg (by simp [h2]), if_neg (by simp [h3]), if_neg (by simp [h4])]

/-- A daily table whose second row has a missing (NaN) profit value. -/
def badT : Table :=
  { rows := [mkRow 1 (some 100), mkRow 2 none],
    hasData := true, hasAno := true, hasLucroLiquido := true,
    hasLucroLiquidoAcc := false, hasTotalTrades := true, hasGains := true,
    hasLosses := true, derived := [] }

/-- Counterexample to C7: on an input whose second row has a missing
profit value the engine raises nothing and hands back a full report — the
malformed row is silently absorbed (it still counts in the win-rate
denominator, giving 50 instead of aborting). -/
theorem C7_counterexample :
    compute badT "Diário" = Except.ok (metricsOf (orderRows badT "Diário") "Diário") ∧
    (metricsOf (orderRows badT "Diário") "Diário").winRate = 50 := by
  constructor
  · rfl
  · have h1 : orderRows badT "Diário" = badT.rows := rfl
    have h2 : (posVals ((badT.rows).map Row.lucro)).length = 1 := rfl
    have h3 : badT.rows.length = 2 := rfl
    rw [h1, metricsOf_winRate, h2, h3, if_pos (by norm_num)]
    norm_num

/-- C7 amended: the engine never fails on a malformed profit cell.  When
the accessed columns are present the computation always succeeds, and in
the resulting report the missing value is silently skipped: the positive
bucket and the gross sums range over the present values only, while the
malformed row still counts in the win-rate denominator. -/
theorem C7_no_data_error (t : Table) (tipo : String)
    (h1 : t.hasLucroLiquido = true) (h2 : t.hasTotalTrades = true)
    (h3 : t.hasGains = true) (h4 : t.hasLosses = true) (h5 : t.hasAno = true) :
    compute t tipo = Except.ok (metricsOf (orderRows t tipo) tipo) ∧
    (metricsOf (orderRows t tipo) tipo).winRate =
      (if 0 < (orderRows t tipo).length then
        ((posVals ((orderRows t tipo).map Row.lucro)).length : ℚ) /
          ((orderRows t tipo).length : ℚ) * 100
      else 0) ∧
    (metricsOf (orderRows t tipo) tipo).profitFactor =
      (if 0 < grossLoss ((orderRows t tipo).map Row.lucro) then
        grossProfit ((orderRows t tipo).map Row.lucro) /
          grossLoss ((orderRows t tipo).map Row.lucro)
      else 0) :=
  ⟨compute_ok_of_columns t tipo (Or.inl h1) h2 h3 h4 h5,
    metricsOf_winRate _ tipo, metricsOf_profitFactor _ tipo⟩

/-- Witness for C7's amended statement at the table with the missing cell. -/
theorem C7_no_data_error_witness :
    compute badT "Diário" = Except.ok (metricsOf (orderRows badT "Diário") "Diário") :=
  (C7_no_data_error badT "Diário" rfl rfl rfl rfl rfl).1

/-- The engine's reordering permutes the rows, whatever the analysis type. -/
theorem orderRows_perm (t : Table) (tipo : String) : (orderRows t tipo).Perm t.rows := by
  rw [orderRows]
  split
  · exact List.perm_insertionSort dataLe t.rows
  · split
    · exact List.Perm.refl t.rows
    · exact List.perm_insertionSort anoLe t.rows

/-- A column sum is invariant under permuting the rows. -/
theorem pdSum_map_perm (f : Row → Cell) (l1 l2 : List Row) (h : l1.Perm l2) :
    pdSum (l1.map f) = pdSum (l2.map f) := by
  unfold pdSum vals
  exact ((h.map f).filterMap id).sum_eq

/-- Inversion on a successful body run: success requires every accessed
column and yields exactly the metrics dictionary. -/
theorem computeRows_ok (t : Table) (rows : List Row) (tipo : String) (rep : Report)
    (h : computeRows t rows tipo = Except.ok rep) :
    (t.hasLucroLiquido = true ∨ t.hasLucroLiquidoAcc = true) ∧
    t.hasTotalTrades = true ∧ t.hasGains = true ∧ t.hasLosses = true ∧
    rep = metricsOf rows tipo := by
  by_cases h1 : ¬(t.hasLucroLiquido = true ∨ t.hasLucroLiquidoAcc = true)
  · rw [computeRows, if_pos h1] at h
    exact Except.noConfusion h
  · by_cases h2 : t.hasTotalTrades = false
    · rw [computeRows, if_neg h1, if_pos h2] at h
      exact Except.noConfusion h
    · by_cases h3 : t.hasGains = false
      · rw [computeRows, if_neg h1, if_neg h2, if_pos h3] at h
        exact Except.noConfusion h
      · by_cases h4 : t.hasLosses = false
        · rw [computeRows, if_neg h1, if_neg h2, if_neg h3, if_pos h4] at h
          exact Except.noConfusion h
        · rw [computeRows, if_neg h1, if_neg h2, if_neg h3, if_neg h4] at h
          injection h with h'
          exact ⟨not_not.mp h1, by simpa using h2, by simpa using h3, by simpa using h4,
            h'.symm⟩

/-- Inversion on a successful whole-function run. -/
theorem compute_ok_inv (t : Table) (tipo : String) (rep : Report)
    (h : compute t tipo = Except.ok rep) :
    (t.hasLucroLiquido = true ∨ t.hasLucroLiquidoAcc = true) ∧
    t.hasTotalTrades = true ∧ t.hasGains = true ∧ t.hasLosses = true ∧
    rep = metricsOf (orderRows t tipo) tipo := by
  by_cases hg : ¬(tipo = "Diário" ∧ t.hasData = true) ∧ tipo ≠ "Mensal" ∧ t.hasAno = false
  · rw [compute, if_pos hg] at h
    exact Except.noConfusion h
  · rw [compute, if_neg hg] at h
    exact computeRows_ok t _ tipo rep h

/-- The daily table missing the `TOTAL TRADES` column. -/
def tNoTT : Table :=
  { rows := [mkRow 1 (some 100)],
    hasData := true, hasAno := true, hasLucroLiquido := true,
    hasLucroLiquidoAcc := false, hasTotalTrades := false, hasGains := true,
    hasLosses := true, derived := [] }

/-- Counterexample to C8: with the `TOTAL TRADES` column absent the
computation does not produce a zero total — it aborts with a `KeyError`. -/
theorem C8_counterexample :
    compute tNoTT "Diário" = Except.error "KeyError: TOTAL TRADES" := rfl

/-- C8 amended: the three totals are the column sums (per-row missing
values are skipped, i.e. contribute zero), but an entirely absent count
column makes the whole computation fail with a `KeyError` instead of
yielding a zero total. -/
theorem C8_totals (t : Table) (tipo : String) :
    ((t.hasLucroLiquido = true ∨ t.hasLucroLiquidoAcc = true) → t.hasTotalTrades = true →
      t.hasGains = true → t.hasLosses = true → t.hasAno = true →
      ∃ rep, compute t tipo = Except.ok rep ∧
        rep.totalTrades = pdSum (t.rows.map Row.totalTrades) ∧
        rep.totalGains = pdSum (t.rows.map Row.gains) ∧
        rep.totalLosses = pdSum (t.rows.map Row.losses)) ∧
    (t.hasTotalTrades = false → ∀ rep, compute t tipo ≠ Except.ok rep) ∧
    (t.hasGains = false → ∀ rep, compute t tipo ≠ Except.ok rep) ∧
    (t.hasLosses = false → ∀ rep, compute t tipo ≠ Except.ok rep) := by
  refine ⟨?_, ?_, ?_, ?_⟩
  · intro h1 h2 h3 h4 h5
    refine ⟨metricsOf (orderRows t tipo) tipo, compute_ok_of_columns t tipo h1 h2 h3 h4 h5,
      ?_, ?_, ?_⟩
    · rw [metricsOf_totalTrades]
      exact pdSum_map_perm Row.totalTrades _ _ (orderRows_perm t tipo)
    · rw [metricsOf_totalGains]
      exact pdSum_map_perm Row.gains _ _ (orderRows_perm t tipo)
    · rw [metricsOf_totalLosses]
      exact pdSum_map_perm Row.losses _ _ (orderRows_perm t tipo)
  · intro hf rep hok
    have h2 := (compute_ok_inv t tipo rep hok).2.1
    rw [hf] at h2
    exact Bool.noConfusion h2
  · intro hf rep hok
    have h3 := (compute_ok_inv t tipo rep hok).2.2.1
    rw [hf] at h3
    exact Bool.noConfusion h3
  · intro hf rep hok
    have h4 := (compute_ok_inv t tipo rep hok).2.2.2.1
    rw [hf] at h4
    exact Bool.noConfusion h4

/-- Witness for C8: totals are column sums on the full table; the table
without `TOTAL TRADES` never yields a report. -/
theorem C8_totals_witness :
    (∃ rep, compute tScenario "Diário" = Except.ok rep ∧
      rep.totalTrades = pdSum (tScenario.rows.map Row.totalTrades) ∧
      rep.totalGains = pdSum (tScenario.rows.map Row.gains) ∧
      rep.totalLosses = pdSum (tScenario.rows.map Row.losses)) ∧
    (∀ rep, compute tNoTT "Diário" ≠ Except.ok rep) :=
  ⟨(C8_totals tScenario "Diário").1 (Or.inl rfl) rfl rfl rfl rfl,
    (C8_totals tNoTT "Diário").2.1 rfl⟩

/-- A monthly table with a profit column; the engine mutates this one. -/
def tMensal : Table :=
  { rows := [mkRow 1 (some 100)],
    hasData := false, hasAno := false, hasLucroLiquido := true,
    hasLucroLiquidoAcc := false, hasTotalTrades := true, hasGains := true,
    hasLosses := true, derived := [] }

/-- Counterexample to C9: for a Monthly run the caller's DataFrame is not
left unchanged — the call adds the derived columns to it in place. -/
theorem C9_counterexample : callerAfter tMensal "Mensal" ≠ tMensal := by
  intro h
  have hd := congrArg Table.derived h
  rw [callerAfter, if_pos ⟨rfl, Or.inl rfl⟩] at hd
  have hlen := congrArg List.length hd
  simp [tMensal] at hlen

/-- C9 amended: the call leaves the caller's frame unchanged for every
analysis type except Monthly, and also for Monthly when the profit column
is absent (the body raises before any assignment); rows and column flags
are never touched; but a Monthly run with a profit column appends the
three derived columns `CAPITAL_ACUM`, `PEAK`, `DRAWDOWN` to the caller's
frame. -/
theorem C9_mutation (t : Table) (tipo : String) :
    (tipo ≠ "Mensal" → callerAfter t tipo = t) ∧
    (¬(t.hasLucroLiquido = true ∨ t.hasLucroLiquidoAcc = true) → callerAfter t tipo = t) ∧
    (callerAfter t tipo).rows = t.rows ∧
    (callerAfter t tipo).hasData = t.hasData ∧
    (callerAfter t tipo).hasAno = t.hasAno ∧
    (callerAfter t tipo).hasLucroLiquido = t.hasLucroLiquido ∧
    (callerAfter t tipo).hasLucroLiquidoAcc = t.hasLucroLiquidoAcc ∧
    (callerAfter t tipo).hasTotalTrades = t.hasTotalTrades ∧
    (callerAfter t tipo).hasGains = t.hasGains ∧
    (callerAfter t tipo).hasLosses = t.hasLosses ∧
    (tipo = "Mensal" → (t.hasLucroLiquido = true ∨ t.hasLucroLiquidoAcc = true) →
      (callerAfter t tipo).derived =
        t.derived ++ [("CAPITAL_ACUM", pdCumsum (t.rows.map Row.lucro)),
          ("PEAK", pdExpandingMax (pdCumsum (t.rows.map Row.lucro))),
          ("DRAWDOWN", pdSub (pdCumsum (t.rows.map Row.lucro))
            (pdExpandingMax (pdCumsum (t.rows.map Row.lucro))))]) := by
  by_cases hc : tipo = "Mensal" ∧ (t.hasLucroLiquido = true ∨ t.hasLucroLiquidoAcc = true)
  · have hca : callerAfter t tipo =
        { t with derived :=
            t.derived ++ [("CAPITAL_ACUM", pdCumsum (t.rows.map Row.lucro)),
              ("PEAK", pdExpandingMax (pdCumsum (t.rows.map Row.lucro))),
              ("DRAWDOWN", pdSub (pdCumsum (t.rows.map Row.lucro))
                (pdExpandingMax (pdCumsum (t.rows.map Row.lucro))))] } := by
      rw [callerAfter, if_pos hc]
    refine ⟨fun hne => absurd hc.1 hne, fun hn => absurd hc.2 hn, ?_, ?_, ?_, ?_, ?_, ?_, ?_,
      ?_, fun _ _ => ?_⟩ <;> rw [hca]
  · have heq : callerAfter t tipo = t := by
      rw [callerAfter, if_neg hc]
    exact ⟨fun _ => heq, fun _ => heq, by rw [heq], by rw [heq], by rw [heq], by rw [heq],
      by rw [heq], by rw [heq], by rw [heq], by rw [heq],
      fun h1 h2 => absurd ⟨h1, h2⟩ hc⟩

/-- Witness for C9: a Daily call leaves the concrete table untouched; the
Monthly call appends exactly the three derived columns. -/
theorem C9_mutation_witness :
    callerAfter tScenario "Diário" = tScenario ∧
    (callerAfter tMensal "Mensal").derived =
      tMensal.derived ++ [("CAPITAL_ACUM", pdCumsum (tMensal.rows.map Row.lucro)),
        ("PEAK", pdExpandingMax (pdCumsum (tMensal.rows.map Row.lucro))),
        ("DRAWDOWN", pdSub (pdCumsum (tMensal.rows.map Row.lucro))
          (pdExpandingMax (pdCumsum (tMensal.rows.map Row.lucro))))] :=
  ⟨(C9_mutation tScenario "Diário").1 (by decide),
    (C9_mutation tMensal "Mensal").2.2.2.2.2.2.2.2.2.2 rfl (Or.inl rfl)⟩

end Dashboard
